import Mathlib

/-
Verification of the basesql adapter (Go) against its specification.

The Go sources are embedded shallowly: machine floats become rationals,
Go `interface\x7b\x7d` values become tagged sums, the small set of regular
expressions used by the repository is embedded as linear patterns run by a
backtracking matcher with Go (leftmost-first, greedy) semantics, and the
stateful reliability components (circuit breaker, token bucket) become
explicit state-passing functions together with reachability relations.
-/

namespace BaseSQL

/-- Single-quote character (ASCII 39). -/
def sqChar : Char := Char.ofNat 39

/-- Double-quote character (ASCII 34). -/
def dqChar : Char := Char.ofNat 34

/-- Go regexp class `\w`: ASCII letters, digits and underscore. -/
def isWordChar (c : Char) : Bool := c.isAlphanum || c = Char.ofNat 95

/-- Go regexp class `\s`: space, tab, newline, form feed, carriage return. -/
def isSpaceChar (c : Char) : Bool :=
  c = Char.ofNat 32 || c = Char.ofNat 9 || c = Char.ofNat 10 ||
  c = Char.ofNat 12 || c = Char.ofNat 13

/-- Character trimmed by Go strings.TrimSpace (ASCII part: `\s` plus vertical tab). -/
def isTrimmable (c : Char) : Bool := isSpaceChar c || c = Char.ofNat 11

/-- Go strings.TrimSpace, restricted to ASCII white space. -/
def trimChars (cs : List Char) : List Char :=
  ((cs.dropWhile isTrimmable).reverse.dropWhile isTrimmable).reverse

/-- The character classes occurring in the repository's regular expressions. -/
inductive CClass
  | word
  | space
  | quote
  | notQuote
  | notRPar
deriving DecidableEq

/-- Membership test of a character class. -/
def CClass.test : CClass → Char → Bool
  | .word, c => isWordChar c
  | .space, c => isSpaceChar c
  | .quote, c => c = sqChar || c = dqChar
  | .notQuote, c => !(c = sqChar || c = dqChar)
  | .notRPar, c => !(c = Char.ofNat 41)

/-- One element of a linear regular-expression pattern: a case-insensitive
literal, or a quantified character class (`plus = true` means at least one
repetition, otherwise zero or more), optionally capturing. -/
inductive PatElem
  | lit (s : List Char)
  | many (cc : CClass) (plus : Bool) (capture : Bool)

/-- Consume a case-insensitive literal from the head of the input,
returning the rest of the input on success. -/
def ciConsume : List Char → List Char → Option (List Char)
  | [], cs => some cs
  | _ :: _, [] => none
  | l :: ls, c :: cs => if c.toLower = l.toLower then ciConsume ls cs else none

/-- Length of the maximal run of leading characters satisfying the class. -/
def runLen (cc : CClass) : List Char → Nat
  | [] => 0
  | c :: cs => if cc.test c then runLen cc cs + 1 else 0

/-- Candidate repetition counts m, m-1, ..., lo in greedy backtracking order. -/
def greedyLens (lo m : Nat) : List Nat := (List.range (m + 1 - lo)).map (fun i => m - i)

/-- Matching step for one quantified class: try the candidate lengths in
greedy order, continue with the rest of the pattern through k. -/
def matchMany (cc : CClass) (plus capture : Bool)
    (k : List Char → Option (List (List Char))) (cs : List Char) :
    Option (List (List Char)) :=
  let lo := if plus then 1 else 0
  let m := runLen cc cs
  if m < lo then none
  else (greedyLens lo m).findSome? (fun len =>
    match k (cs.drop len) with
    | some caps => some (if capture then cs.take len :: caps else caps)
    | none => none)

/-- Backtracking matcher for a linear pattern against a prefix of the input;
greedy quantifiers with backtracking, as a backtracking engine (and hence Go
regexp submatching) behaves. Returns the captured groups in order. -/
def matchElems : List PatElem → List Char → Option (List (List Char))
  | [], _ => some []
  | .lit s :: es, cs =>
    match ciConsume s cs with
    | some rest => matchElems es rest
    | none => none
  | .many cc plus capture :: es, cs => matchMany cc plus capture (matchElems es) cs

/-- Go FindStringSubmatch on a linear pattern: try every start position from
the left, first success wins. -/
def findSubmatch (p : List PatElem) : List Char → Option (List (List Char))
  | [] => matchElems p []
  | c :: cs =>
    match matchElems p (c :: cs) with
    | some caps => some caps
    | none => findSubmatch p cs

/-- Go MatchString of an alternation of linear patterns: true iff some
alternative matches at some position. -/
def matchesAnywhere (alts : List (List PatElem)) (cs : List Char) : Bool :=
  alts.any (fun a => (findSubmatch a cs).isSome)

/-- Shorthand: case-insensitive literal pattern element. -/
def litP (s : String) : PatElem := .lit s.toList

/-- Shorthand: `\s*`. -/
def spacesP : PatElem := .many .space false false

/-- Shorthand: `\s+`. -/
def spaces1P : PatElem := .many .space true false

/-- The dangerous patterns compiled by NewSQLInjectionValidator, one list of
alternatives per Go regular expression, in source order:
dangerous keyword pairs, comment tokens, string concatenation, boolean
tautologies, timing calls, information-schema probes. -/
def dangerousPatterns : List (List (List PatElem)) :=
  [ [ [litP ("union"), spaces1P, litP ("select")],
      [litP ("drop"), spaces1P, litP ("table")],
      [litP ("delete"), spaces1P, litP ("from")],
      [litP ("insert"), spaces1P, litP ("into")],
      [litP ("update"), spaces1P, litP ("set")] ],
    [ [PatElem.lit [Char.ofNat 45, Char.ofNat 45]],
      [PatElem.lit [Char.ofNat 47, Char.ofNat 42]],
      [PatElem.lit [Char.ofNat 42, Char.ofNat 47]],
      [PatElem.lit [Char.ofNat 35]] ],
    [ [PatElem.lit [sqChar], spacesP, PatElem.lit [Char.ofNat 43], spacesP, PatElem.lit [sqChar]],
      [PatElem.lit [dqChar], spacesP, PatElem.lit [Char.ofNat 43], spacesP, PatElem.lit [dqChar]] ],
    [ [spaces1P, litP ("or"), spaces1P, litP ("1"), spacesP, litP ("="), spacesP, litP ("1")],
      [spaces1P, litP ("and"), spaces1P, litP ("1"), spacesP, litP ("="), spacesP, litP ("1")] ],
    [ [litP ("sleep"), spacesP, PatElem.lit [Char.ofNat 40]],
      [litP ("waitfor"), spaces1P, litP ("delay")],
      [litP ("benchmark"), spacesP, PatElem.lit [Char.ofNat 40]] ],
    [ [litP ("information_schema")],
      [litP ("sys.")],
      [litP ("mysql.")],
      [litP ("pg_")] ] ]

/-- SQLInjectionValidator.ValidateSQL: the statement is rejected (the Go
method returns an error) iff some dangerous pattern matches the trimmed text. -/
def sqlInjectionDetected (sql : String) : Bool :=
  dangerousPatterns.any (fun alts => matchesAnywhere alts (trimChars sql.toList))

/-- The command kinds of the SQLCommand AST. -/
inductive SQLCommandType
  | select
  | insert
  | update
  | delete
  | show
  | create
  | drop
  | describe
deriving DecidableEq

/-- Outcome of the executor gate. -/
inductive ExecOutcome
  | securityError
  | dispatched (t : SQLCommandType)
deriving DecidableEq

/-- Executor.Execute, restricted to its security gate: the raw SQL of the
parsed command is scanned by ValidateSQL; a match returns a security error,
otherwise the command is dispatched to the handler of its kind. -/
def executorExecute (t : SQLCommandType) (rawSQL : String) : ExecOutcome :=
  if sqlInjectionDetected rawSQL then .securityError else .dispatched t

/-- Modelled from the spec: the dangerous patterns the specification lists in
its injection-defense paragraph: comment tokens, UNION SELECT,
INFORMATION_SCHEMA, sleep-style calls, always-true tautologies.  (Stacked
statements have no pattern in the source at all.)  This is the spec-side
pattern set used to show the divergence of claim C1. -/
def specListedPatterns : List (List (List PatElem)) :=
  [ [ [litP ("union"), spaces1P, litP ("select")] ],
    [ [PatElem.lit [Char.ofNat 45, Char.ofNat 45]],
      [PatElem.lit [Char.ofNat 47, Char.ofNat 42]],
      [PatElem.lit [Char.ofNat 42, Char.ofNat 47]],
      [PatElem.lit [Char.ofNat 35]] ],
    [ [spaces1P, litP ("or"), spaces1P, litP ("1"), spacesP, litP ("="), spacesP, litP ("1")],
      [spaces1P, litP ("and"), spaces1P, litP ("1"), spacesP, litP ("="), spacesP, litP ("1")] ],
    [ [litP ("sleep"), spacesP, PatElem.lit [Char.ofNat 40]],
      [litP ("waitfor"), spaces1P, litP ("delay")],
      [litP ("benchmark"), spacesP, PatElem.lit [Char.ofNat 40]] ],
    [ [litP ("information_schema")] ] ]

/-- A single-quote as a one-character string, for assembling SQL texts. -/
def sqStr : String := String.mk [sqChar]

/-- The plain insert statement named by claim C1. -/
def stmtInsert : String :=
  "INSERT INTO users (name) VALUES (" ++ sqStr ++ "a" ++ sqStr ++ ")"

/-- Go error values as inspected by the retry machinery: a typed APIError
carrying a server/HTTP code and a classification tag, or any other (plain)
error value. -/
inductive GoError
  | apiErr (code : ℤ) (ty : String)
  | plain (msg : String)
deriving DecidableEq

/-- common.IsRetryableError: nil is not retried; an APIError classified auth
is not retried; an APIError with a 4xx code other than 429 is not retried; an
APIError is retried iff its code is ≥ 500 or equals 429; every non-APIError
value falls to the default branch and is retried. -/
def isRetryableError : Option GoError → Bool
  | none => false
  | some (.apiErr code ty) =>
    if ty = ("auth") then false
    else if 400 ≤ code ∧ code < 500 ∧ code ≠ 429 then false
    else decide (500 ≤ code ∨ code = 429)
  | some (.plain _) => true

/-- common.ShouldRetry: stop when the attempt budget is reached, else consult
IsRetryableError. -/
def shouldRetry (e : GoError) (attempt maxRetries : Nat) : Bool :=
  if maxRetries ≤ attempt then false else isRetryableError (some e)

/-- Client.doRequestWithRetry from a given attempt index, abstracted over the
outcome of each single-request attempt.  remaining = maxRetries − attempt is
the number of further attempts the budget still allows: the Go guard
attempt < MaxRetries inside ShouldRetry is exactly remaining > 0.  Returns
the number of attempts performed and the final outcome (the Go code wraps
the last error in a formatted message; the wrapping text is dropped here). -/
def retryLoopAux (outcomes : Nat → Except GoError Unit) :
    Nat → Nat → Nat × Option GoError
  | attempt, remaining =>
    match outcomes attempt with
    | .ok _ => (attempt + 1, none)
    | .error e =>
      match remaining with
      | 0 => (attempt + 1, some e)
      | r + 1 =>
        if isRetryableError (some e) then retryLoopAux outcomes (attempt + 1) r
        else (attempt + 1, some e)

/-- Client.doRequestWithRetry: run the attempt loop from attempt 0 with
maxRetries further attempts allowed. -/
def doRequestWithRetry (outcomes : Nat → Except GoError Unit) (maxRetries : Nat) :
    Nat × Option GoError :=
  retryLoopAux outcomes 0 maxRetries

/-- The fast-fail error CircuitBreaker.Execute returns when the breaker does
not admit the request: a plain fmt.Errorf error (the Go text is Chinese), not
an APIError. -/
def circuitOpenError : GoError := .plain ("circuit breaker open, request rejected")

/-- Circuit breaker states (CLOSED / OPEN / HALF_OPEN). -/
inductive CBStateTag
  | closed
  | opened
  | halfOpen
deriving DecidableEq

/-- CircuitBreakerConfig: failure threshold, open timeout (nanoseconds) and
half-open probe budget.  The unused statistics Interval is omitted. -/
structure CBConfig where
  maxFailures : ℕ
  timeout : ℤ
  maxRequests : ℕ
deriving DecidableEq

/-- The mutable fields of CircuitBreaker; lastFailTime in nanoseconds. -/
structure CBState where
  tag : CBStateTag
  failures : ℕ
  requests : ℕ
  lastFailTime : ℤ
deriving DecidableEq

/-- NewCircuitBreaker: CLOSED with zeroed counters and zero last-failure time. -/
def newCircuitBreaker : CBState := ⟨.closed, 0, 0, 0⟩

/-- CircuitBreaker.allowRequest at time now: CLOSED always admits; OPEN
admits (and moves to HALF_OPEN with a fresh probe counter) once the open
timeout has strictly elapsed; HALF_OPEN admits while the probe counter is
below the probe budget. -/
def allowRequest (cfg : CBConfig) (now : ℤ) (s : CBState) : Bool × CBState :=
  match s.tag with
  | .closed => (true, s)
  | .opened =>
    if cfg.timeout < now - s.lastFailTime then
      (true, { s with tag := .halfOpen, requests := 0 })
    else (false, s)
  | .halfOpen => (decide (s.requests < cfg.maxRequests), s)

/-- CircuitBreaker.recordResult at time now (failed = the operation returned
an error).  In CLOSED a failure increments the counter and opens the breaker
at the threshold, a success zeroes the counter; in HALF_OPEN every result
increments the probe counter, a failure reopens the breaker, and enough
successes close it; in OPEN the state is untouched. -/
def recordResult (cfg : CBConfig) (now : ℤ) (failed : Bool) (s : CBState) : CBState :=
  match s.tag with
  | .closed =>
    if failed then
      let s1 := { s with failures := s.failures + 1, lastFailTime := now }
      if cfg.maxFailures ≤ s1.failures then { s1 with tag := .opened } else s1
    else { s with failures := 0 }
  | .halfOpen =>
    let s1 := { s with requests := s.requests + 1 }
    if failed then { s1 with tag := .opened, lastFailTime := now }
    else if cfg.maxRequests ≤ s1.requests then
      { s1 with tag := .closed, failures := 0, requests := 0 }
    else s1
  | .opened => s

/-- CircuitBreaker.Execute: gate through allowRequest; when admitted, run the
operation (outcome opErr) and record the result; otherwise fast-fail with the
circuit-open error. -/
def cbExecute (cfg : CBConfig) (now : ℤ) (opErr : Option GoError) (s : CBState) :
    Option GoError × CBState :=
  let gate := allowRequest cfg now s
  if gate.1 then (opErr, recordResult cfg now opErr.isSome gate.2)
  else (some circuitOpenError, gate.2)

/-- CircuitBreaker.Reset: back to CLOSED with zeroed counters and time. -/
def cbReset (_s : CBState) : CBState := ⟨.closed, 0, 0, 0⟩

/-- Breaker states reachable from the fresh breaker through Execute calls (at
arbitrary times with arbitrary operation outcomes) and Reset. -/
inductive CBReachable (cfg : CBConfig) : CBState → Prop
  | init : CBReachable cfg newCircuitBreaker
  | exec (now : ℤ) (opErr : Option GoError) (s : CBState) :
      CBReachable cfg s → CBReachable cfg (cbExecute cfg now opErr s).2
  | reset (s : CBState) : CBReachable cfg s → CBReachable cfg (cbReset s)

/-- Client.doSingleRequest up to the HTTP layer: the rate-limiter gate
precedes the circuit breaker.  allowed is the rate limiter's verdict, opErr
the outcome of the inner operation; the result pairs the error outcome with
the breaker state after the call. -/
def doSingleRequest (allowed : Bool) (cfg : CBConfig) (now : ℤ) (opErr : Option GoError)
    (cb : CBState) : Option GoError × CBState :=
  if !allowed then (some (.apiErr 429 ("rate_limit")), cb)
  else cbExecute cfg now opErr cb

/-- RateLimiterConfig: rate in tokens per second and burst capacity.  Go
stores the rate as float64 and the burst as int; they become ℚ and ℤ. -/
structure RLConfig where
  rate : ℚ
  burst : ℤ
deriving DecidableEq

/-- A well-formed rate-limiter configuration: non-negative rate and burst. -/
def RLConfig.Valid (c : RLConfig) : Prop := 0 ≤ c.rate ∧ 0 ≤ c.burst

/-- The mutable fields of TokenBucket; times in seconds. -/
structure TBState where
  config : RLConfig
  tokens : ℚ
  lastRefill : ℚ
deriving DecidableEq

/-- NewTokenBucket: the bucket starts full. -/
def newTokenBucket (cfg : RLConfig) (now : ℚ) : TBState :=
  ⟨cfg, (cfg.burst : ℚ), now⟩

/-- TokenBucket.refill at time now: add rate × elapsed tokens, clamped above
at the burst capacity; a non-positive elapsed time is a no-op. -/
def tbRefill (now : ℚ) (s : TBState) : TBState :=
  let elapsed := now - s.lastRefill
  if elapsed ≤ 0 then s
  else
    let tokens1 := s.tokens + s.config.rate * elapsed
    let tokens2 := if (s.config.burst : ℚ) < tokens1 then (s.config.burst : ℚ) else tokens1
    { s with tokens := tokens2, lastRefill := now }

/-- TokenBucket.Allow at time now: refill, then grant one token when at least
one whole token is available. -/
def tbAllow (now : ℚ) (s : TBState) : Bool × TBState :=
  let s1 := tbRefill now s
  if 1 ≤ s1.tokens then (true, { s1 with tokens := s1.tokens - 1 })
  else (false, s1)

/-- TokenBucket.AllowN at time now: non-positive n is granted without
touching the bucket; otherwise refill and grant n tokens when available.
(Wait and WaitN mutate the bucket only through AllowN; calculateWaitTime
reads but never writes.) -/
def tbAllowN (now : ℚ) (n : ℤ) (s : TBState) : Bool × TBState :=
  if n ≤ 0 then (true, s)
  else
    let s1 := tbRefill now s
    if (n : ℚ) ≤ s1.tokens then (true, { s1 with tokens := s1.tokens - (n : ℚ) })
    else (false, s1)

/-- TokenBucket.Reset: refill to the burst capacity. -/
def tbReset (now : ℚ) (s : TBState) : TBState :=
  { s with tokens := (s.config.burst : ℚ), lastRefill := now }

/-- TokenBucket.UpdateConfig: install the new configuration, clamping the
current tokens down to the new burst when they exceed it. -/
def tbUpdateConfig (cfg : RLConfig) (s : TBState) : TBState :=
  let s1 := { s with config := cfg }
  if (cfg.burst : ℚ) < s1.tokens then { s1 with tokens := (cfg.burst : ℚ) } else s1

/-- Bucket states reachable from a freshly created bucket through Allow,
AllowN (hence Wait/WaitN), refill (GetTokens), Reset and UpdateConfig, all
configurations involved being well-formed. -/
inductive TBReachable : TBState → Prop
  | init (cfg : RLConfig) (now : ℚ) : cfg.Valid → TBReachable (newTokenBucket cfg now)
  | allow (now : ℚ) (s : TBState) : TBReachable s → TBReachable (tbAllow now s).2
  | allowN (now : ℚ) (n : ℤ) (s : TBState) : TBReachable s → TBReachable (tbAllowN now n s).2
  | refill (now : ℚ) (s : TBState) : TBReachable s → TBReachable (tbRefill now s)
  | reset (now : ℚ) (s : TBState) : TBReachable s → TBReachable (tbReset now s)
  | update (cfg : RLConfig) (s : TBState) :
      cfg.Valid → TBReachable s → TBReachable (tbUpdateConfig cfg s)

/-- TokenBucket.calculateWaitTime, in nanoseconds.  The Go code computes
needed/rate as float64 seconds and converts it with a time.Duration cast —
an int64 truncation toward zero — BEFORE multiplying by time.Second, so the
result is a whole number of seconds. -/
def calculateWaitTimeNs (rate tokens : ℚ) (n : ℤ) : ℤ :=
  let needed : ℚ := (n : ℚ) - tokens
  if needed ≤ 0 then 0
  else (Int.floor (needed / rate)) * 1000000000

/-- Modelled from the spec: the deficit-derived delay (n − tokens)/rate of
§4.1, in nanoseconds, as an exact rational. -/
def specWaitTimeNs (rate tokens : ℚ) (n : ℤ) : ℚ :=
  (((n : ℚ) - tokens) / rate) * 1000000000

/-- Go interface values produced by the SQL value parser: nil, int, float64,
bool and string (floats as exact rationals).  Go int and float64 values are
distinct dynamic types, hence distinct constructors. -/
inductive GoValue
  | vnull
  | vint (z : ℤ)
  | vfloat (q : ℚ)
  | vbool (b : Bool)
  | vstr (s : String)
deriving DecidableEq

/-- Go strconv.ParseBool: exactly 1, t, T, TRUE, true, True and their false
counterparts. -/
def goParseBool (cs : List Char) : Option Bool :=
  let s := String.mk cs
  if s = ("1") || s = ("t") || s = ("T") || s = ("TRUE") || s = ("true") || s = ("True") then
    some true
  else if s = ("0") || s = ("f") || s = ("F") || s = ("FALSE") || s = ("false") || s = ("False") then
    some false
  else none

/-- Splits a maximal run of leading decimal digits off a character list. -/
def splitDigits : List Char → List Char × List Char
  | [] => ([], [])
  | c :: cs =>
    if c.isDigit then
      let p := splitDigits cs
      (c :: p.1, p.2)
    else ([], c :: cs)

/-- Numeric value of a run of decimal digits. -/
def digitsToNat (ds : List Char) : ℕ :=
  ds.foldl (fun acc c => acc * 10 + (c.toNat - 48)) 0

/-- Go strconv.ParseFloat, restricted to plain decimal literals
[+-]?digits[.digits] with at least one digit.  The repository's value paths
only meet such literals; exponent, hexadecimal, infinity and NaN forms are
outside this model. -/
def goParseFloat (cs : List Char) : Option ℚ :=
  let signed :=
    match cs with
    | c :: tl =>
      if c = Char.ofNat 45 then (true, tl)
      else if c = Char.ofNat 43 then (false, tl)
      else (false, cs)
    | [] => (false, cs)
  let ipPart := splitDigits signed.2
  let finish (mag : ℚ) : Option ℚ := some (if signed.1 then -mag else mag)
  match ipPart.2 with
  | [] => if ipPart.1 = [] then none else finish ((digitsToNat ipPart.1 : ℚ))
  | d :: tl =>
    if d = Char.ofNat 46 then
      let fpPart := splitDigits tl
      if fpPart.2 = [] ∧ (ipPart.1 ≠ [] ∨ fpPart.1 ≠ []) then
        finish ((digitsToNat ipPart.1 : ℚ) +
          (digitsToNat fpPart.1 : ℚ) / ((10 : ℚ) ^ fpPart.1.length))
      else none
    else none

/-- SQLParser.parseValue — the unexported method used by the INSERT value
list, the UPDATE SET clause and the WHERE paths: trim; NULL
(case-insensitively) becomes nil; then try float, then bool, else keep the
trimmed string.  There is no integer step, and quotes were already stripped
by the callers before this classification. -/
def sqlParseValue (s : String) : GoValue :=
  let v := trimChars s.toList
  if String.mk (v.map Char.toUpper) = ("NULL") then .vnull
  else
    match goParseFloat v with
    | some q => .vfloat q
    | none =>
      match goParseBool v with
      | some b => .vbool b
      | none => .vstr (String.mk v)

/-- The scanner of SQLParser.parseValueList: split on commas outside quotes;
a quote character toggles the in-quote state and is NOT copied into the
current token; a comma emits the current token even when empty; the final
token is kept only when non-empty. -/
def splitValuesAux : List Char → Bool → Char → List Char → List (List Char)
  | [], _, _, cur => if cur = [] then [] else [cur.reverse]
  | c :: cs, false, qc, cur =>
    if c = sqChar || c = dqChar then splitValuesAux cs true c cur
    else if c = Char.ofNat 44 then cur.reverse :: splitValuesAux cs false qc []
    else splitValuesAux cs false qc (c :: cur)
  | c :: cs, true, qc, cur =>
    if c = qc then splitValuesAux cs false qc cur
    else splitValuesAux cs true qc (c :: cur)

/-- SQLParser.parseValueList: tokenize (stripping quotes), trim each token,
classify each with parseValue. -/
def parseValueListGo (s : String) : List GoValue :=
  (splitValuesAux s.toList false (Char.ofNat 0) []).map (fun t => sqlParseValue (String.mk t))

/-- One remote filter condition (field name, remote operator tag, values). -/
structure FilterCondition where
  fieldName : String
  operator : String
  value : List GoValue
deriving DecidableEq

/-- The remote filter request: conjunction plus conditions. -/
structure FilterRequest where
  conjunction : String
  conditions : List FilterCondition
deriving DecidableEq

/-- Shorthand: capturing `(\w+)`. -/
def wordCapP : PatElem := .many .word true true

/-- Shorthand: `['"]*`. -/
def quotesP : PatElem := .many .quote false false

/-- Shorthand: capturing `([^'"]+)`. -/
def valueCapP : PatElem := .many .notQuote true true

/-- Shorthand: capturing `([^)]+)`. -/
def inValueCapP : PatElem := .many .notRPar true true

/-- The operator patterns of buildFilterFromWhere, in source order: IS NOT
NULL, IS NULL, !=, >=, <=, >, <, =, LIKE, IN. -/
def whereOpPatterns : List (List PatElem × String) :=
  [ ([wordCapP, spaces1P, litP ("is"), spaces1P, litP ("not"), spaces1P, litP ("null")],
      ("isNotEmpty")),
    ([wordCapP, spaces1P, litP ("is"), spaces1P, litP ("null")], ("isEmpty")),
    ([wordCapP, spacesP, litP ("!="), spacesP, quotesP, valueCapP, quotesP], ("isNot")),
    ([wordCapP, spacesP, litP (">="), spacesP, quotesP, valueCapP, quotesP], ("isGreaterEqual")),
    ([wordCapP, spacesP, litP ("<="), spacesP, quotesP, valueCapP, quotesP], ("isLessEqual")),
    ([wordCapP, spacesP, litP (">"), spacesP, quotesP, valueCapP, quotesP], ("isGreater")),
    ([wordCapP, spacesP, litP ("<"), spacesP, quotesP, valueCapP, quotesP], ("isLess")),
    ([wordCapP, spacesP, litP ("="), spacesP, quotesP, valueCapP, quotesP], ("is")),
    ([wordCapP, spaces1P, litP ("like"), spaces1P, quotesP, valueCapP, quotesP], ("contains")),
    ([wordCapP, spaces1P, litP ("in"), spacesP, PatElem.lit [Char.ofNat 40], inValueCapP,
        PatElem.lit [Char.ofNat 41]], ("isAnyOf")) ]

/-- strings.Split on a comma (Split of the empty string is one empty part). -/
def splitOnComma : List Char → List (List Char)
  | [] => [[]]
  | c :: cs =>
    if c = Char.ofNat 44 then [] :: splitOnComma cs
    else
      match splitOnComma cs with
      | p :: ps => (c :: p) :: ps
      | [] => [[c]]

/-- Go strings.Trim with the cutset of the two quote characters. -/
def trimQuotes (cs : List Char) : List Char :=
  ((cs.dropWhile (fun c => c = sqChar || c = dqChar)).reverse.dropWhile
    (fun c => c = sqChar || c = dqChar)).reverse

/-- Removal of the SQL LIKE wildcards percent and underscore
(two strings.ReplaceAll calls). -/
def stripLikeWildcards (cs : List Char) : List Char :=
  cs.filter (fun c => !(c = Char.ofNat 37 || c = Char.ofNat 95))

/-- The value coercion of buildFilterFromWhere: the lowercased texts true and
false become native booleans, everything else stays a string. -/
def boolOrString (cs : List Char) : GoValue :=
  if String.mk (cs.map Char.toLower) = ("true") then .vbool true
  else if String.mk (cs.map Char.toLower) = ("false") then .vbool false
  else .vstr (String.mk cs)

/-- The per-match body of buildFilterFromWhere: validate the captures and
build the condition; none models the Go continue (fall through to the next
pattern). -/
def condFromMatch (op : String) (caps : List (List Char)) : Option FilterCondition :=
  match caps with
  | [] => none
  | fieldCs :: restCaps =>
    let field := trimChars fieldCs
    if field = [] then none
    else if op = ("isEmpty") || op = ("isNotEmpty") then
      some ⟨String.mk field, op, []⟩
    else
      match restCaps with
      | [] => none
      | valCs :: _ =>
        let v := trimChars valCs
        if v = [] then none
        else if op = ("isAnyOf") then
          let parts := ((splitOnComma v).map (fun p => trimQuotes (trimChars p))).filter
            (fun p => p ≠ [])
          let values := parts.map boolOrString
          if values = [] then none else some ⟨String.mk field, op, values⟩
        else
          let v2 := if op = ("contains") then stripLikeWildcards v else v
          some ⟨String.mk field, op, [boolOrString v2]⟩

/-- The pattern loop of buildFilterFromWhere: the first fully successful
pattern wins (Go break); a failed validation falls through (Go continue). -/
def firstWhereCond : List (List PatElem × String) → List Char → Option FilterCondition
  | [], _ => none
  | (p, op) :: rest, cs =>
    match findSubmatch p cs with
    | some caps =>
      match condFromMatch op caps with
      | some c => some c
      | none => firstWhereCond rest cs
    | none => firstWhereCond rest cs

/-- buildFilterFromWhere: nil on an empty (trimmed) clause; otherwise the one
condition produced by the first matching operator pattern, under conjunction
and. -/
def buildFilterFromWhere (whereClause : String) : Option FilterRequest :=
  let cs := trimChars whereClause.toList
  if cs = [] then none
  else
    match firstWhereCond whereOpPatterns cs with
    | some c => some ⟨("and"), [c]⟩
    | none => none

/-- SQLConverter.buildLikeCondition: a GORM Like clause becomes a contains
condition whose single value is the raw pattern — no wildcard stripping.
columnName is the clause's column name; the empty string models the failed
Go type assertion on the column, which yields nil. -/
def buildLikeCondition (columnName : String) (likeValue : GoValue) : Option FilterCondition :=
  if columnName = "" then none
  else some ⟨columnName, ("contains"), [likeValue]⟩

/-- Whether needle occurs as a contiguous substring (strings.Contains). -/
def hasSubstr (needle : List Char) : List Char → Bool
  | [] => needle.isEmpty
  | c :: cs => if needle.isPrefixOf (c :: cs) then true else hasSubstr needle cs

/-- Everything before the first occurrence of needle — strings.Split on the
separator, first part; the whole input when the separator is absent. -/
def beforeFirst (needle : List Char) : List Char → List Char
  | [] => []
  | c :: cs => if needle.isPrefixOf (c :: cs) then [] else c :: beforeFirst needle cs

/-- Uppercase a character list (strings.ToUpper, ASCII part). -/
def upperChars (cs : List Char) : List Char := cs.map Char.toUpper

/-- SQLConverter.buildExprCondition: translate a GORM clause.Expr of shape
field OP ?.  The NULL tests need no bind variable and split the UPPERCASED
sql, so they return an uppercased field name; the other operators split the
original sql and take the first bind variable (a Go bool keeps its native
type, which is the identity here since bind values are already GoValue). -/
def buildExprCondition (sql : String) (vars : List GoValue) : Option FilterCondition :=
  let scs := sql.toList
  let u := upperChars scs
  if hasSubstr ((" IS NOT NULL").toList) u then
    some ⟨String.mk (trimChars (beforeFirst ((" IS NOT NULL").toList) u)), ("isNotEmpty"), []⟩
  else if hasSubstr ((" IS NULL").toList) u then
    some ⟨String.mk (trimChars (beforeFirst ((" IS NULL").toList) u)), ("isEmpty"), []⟩
  else
    match vars with
    | [] => none
    | v0 :: _ =>
      let fieldOp : Option (List Char × String) :=
        if hasSubstr ((" = ?").toList) scs then
          some (trimChars (beforeFirst ((" = ?").toList) scs), ("is"))
        else if hasSubstr ((" != ?").toList) scs || hasSubstr ((" <> ?").toList) scs then
          let f1 := trimChars (beforeFirst ((" != ?").toList) scs)
          let f := if f1 = [] then trimChars (beforeFirst ((" <> ?").toList) scs) else f1
          some (f, ("isNot"))
        else if hasSubstr ((" > ?").toList) scs then
          some (trimChars (beforeFirst ((" > ?").toList) scs), ("isGreater"))
        else if hasSubstr ((" >= ?").toList) scs then
          some (trimChars (beforeFirst ((" >= ?").toList) scs), ("isGreaterEqual"))
        else if hasSubstr ((" < ?").toList) scs then
          some (trimChars (beforeFirst ((" < ?").toList) scs), ("isLess"))
        else if hasSubstr ((" <= ?").toList) scs then
          some (trimChars (beforeFirst ((" <= ?").toList) scs), ("isLessEqual"))
        else if hasSubstr ((" LIKE ?").toList) scs || hasSubstr ((" like ?").toList) scs then
          let f1 := trimChars (beforeFirst ((" LIKE ?").toList) scs)
          let f := if f1 = [] then trimChars (beforeFirst ((" like ?").toList) scs) else f1
          some (f, ("contains"))
        else none
      match fieldOp with
      | none => none
      | some fo =>
        if fo.1 = [] then none
        else some ⟨String.mk fo.1, fo.2, [v0]⟩

/-- The remote calls issued by executeRawDelete. -/
inductive APICall
  | listRecords
  | deleteRecord (id : String)
deriving DecidableEq

/-- The per-record deletion loop of executeRawDelete: stop at the first
failing DELETE call.  Returns the DELETE calls issued and the error. -/
def rawDeleteLoop (del : String → Option GoError) : List String → List APICall × Option GoError
  | [] => ([], none)
  | id :: rest =>
    match del id with
    | some e => ([.deleteRecord id], some e)
    | none =>
      let r := rawDeleteLoop del rest
      (.deleteRecord id :: r.1, r.2)

/-- executeRawDelete for a DELETE without WHERE: one list call; on its
failure, or when the table is empty, RowsAffected is 0; otherwise one DELETE
per listed record.  db.RowsAffected is assigned only after the loop
completes, so an error return leaves it at its initial value 0.
Returns (calls issued, RowsAffected, error). -/
def executeRawDeleteNoWhere (listResult : Except GoError (List String))
    (del : String → Option GoError) : List APICall × ℤ × Option GoError :=
  match listResult with
  | .error e => ([.listRecords], 0, some e)
  | .ok items =>
    if items = [] then ([.listRecords], 0, none)
    else
      let r := rawDeleteLoop del items
      match r.2 with
      | some e => (.listRecords :: r.1, 0, some e)
      | none => (.listRecords :: r.1, (items.length : ℤ), none)

/-- Go values arriving at Field.ConvertFromGoValue: nil, any signed or
unsigned integer (all widths collapse to ℤ since the Go conversion float64(v)
is the same expression for every width), float, string, bool, and any other
value. -/
inductive GoInValue
  | gnil
  | gint (z : ℤ)
  | gfloat (q : ℚ)
  | gstr (s : String)
  | gbool (b : Bool)
  | gother
deriving DecidableEq

/-- Field.convertFromNumber: integers and floats to their float64 value, a
parseable string to the parsed number, and every other case — including a
non-parseable string — falls through to 0.0. -/
def convertFromNumber : GoInValue → ℚ
  | .gint z => (z : ℚ)
  | .gfloat q => q
  | .gstr s =>
    match goParseFloat s.toList with
    | some q => q
    | none => 0
  | _ => 0

/-- Wire values produced by the numeric branch of Field.ConvertFromGoValue. -/
inductive WireValue
  | wnil
  | wnum (q : ℚ)
deriving DecidableEq

/-- The numeric field type codes: Number (2), Progress (19), Currency (20),
Rating (21) — the case list of the numeric branch of ConvertFromGoValue. -/
def numericTypeCodes : List ℤ := [2, 19, 20, 21]

/-- Field.ConvertFromGoValue restricted to the numeric field types: nil short
circuits to nil before the type switch; the numeric branch returns
convertFromNumber of the value.  The Go method has no error result; none here
only marks a non-numeric type code as outside this model. -/
def convertFromGoValueNumeric (typeCode : ℤ) (v : GoInValue) : Option WireValue :=
  if typeCode ∈ numericTypeCodes then
    some (match v with
      | .gnil => .wnil
      | w => .wnum (convertFromNumber w))
  else none

/-- The raw-SQL LIKE clause of scenario S2: name LIKE quoted percent-zh-percent. -/
def likeZhClause : String := "name LIKE " ++ sqStr ++ "%zh%" ++ sqStr

/-- The single-quoted numeral 42, as it appears in an INSERT value list. -/
def quoted42 : String := sqStr ++ "42" ++ sqStr

/-- Claim C1 (code_bug evidence): the pre-translation injection scan of
Executor.Execute rejects the plain documented statements INSERT INTO,
DELETE FROM and DROP TABLE with a security error — its first dangerous
pattern matches the bare DML keyword pairs — although none of the dangerous
patterns the spec lists (comment tokens, UNION SELECT, tautologies,
sleep-style calls, INFORMATION_SCHEMA) occurs in them; only the UPDATE
statement reaches its handler. -/
theorem c1_injection_scan_rejects_documented_dml :
    executorExecute .insert stmtInsert = .securityError ∧
    executorExecute .delete ("DELETE FROM users") = .securityError ∧
    executorExecute .drop ("DROP TABLE users") = .securityError ∧
    executorExecute .update ("UPDATE users SET age=1") = .dispatched .update ∧
    specListedPatterns.all
      (fun alts => !(matchesAnywhere alts (trimChars stmtInsert.toList))) = true ∧
    specListedPatterns.all
      (fun alts => !(matchesAnywhere alts (trimChars ("DELETE FROM users").toList))) = true :=
  ⟨rfl, rfl, rfl, rfl, rfl, rfl⟩

/-- Claim C2 (counterexample): the circuit-open fast-fail error is a plain
error, not an APIError, so IsRetryableError classifies it retryable, and the
retry loop performs a second attempt after receiving it — refuting that a
circuit-open error is never retried within the same call. -/
theorem c2_circuit_open_error_is_retried :
    isRetryableError (some circuitOpenError) = true ∧
    doRequestWithRetry
      (fun attempt => if attempt = 0 then .error circuitOpenError else .ok ()) 3 =
      (2, none) :=
  ⟨rfl, rfl⟩

/-- Helper: a constant retryable error exhausts the attempt budget of the
retry loop. -/
theorem retryLoopAux_const_error (outcomes : Nat → Except GoError Unit) (e : GoError)
    (he : isRetryableError (some e) = true) (h : ∀ k, outcomes k = .error e) :
    ∀ remaining attempt,
      retryLoopAux outcomes attempt remaining = (attempt + remaining + 1, some e) := by
  intro remaining
  induction remaining with
  | zero =>
    intro attempt
    unfold retryLoopAux
    rw [h attempt]
  | succ r ih =>
    intro attempt
    unfold retryLoopAux
    rw [h attempt]
    simp only [he, if_true]
    rw [ih (attempt + 1)]
    congr 1
    omega

/-- Helper: a non-retryable first error stops the retry loop after one
attempt. -/
theorem retry_stops_on_nonretryable (outcomes : Nat → Except GoError Unit) (e : GoError)
    (hne : isRetryableError (some e) = false) (h0 : outcomes 0 = .error e)
    (maxRetries : Nat) :
    doRequestWithRetry outcomes maxRetries = (1, some e) := by
  unfold doRequestWithRetry
  unfold retryLoopAux
  rw [h0]
  cases maxRetries with
  | zero => rfl
  | succ r => simp [hne]

/-- Claim C2 (amended): retry eligibility is a pure function of the inspected
error: a non-auth APIError with code ≥ 500 or 429 is retried, and when every
attempt keeps failing with a retryable error the loop runs until the attempt
budget is exhausted; an APIError with a 4xx code other than 429, and an
auth-classified APIError, stop the loop at once; every non-APIError value —
network/transport errors and the circuit-open fast-fail error alike — falls
to the default branch and is retried. -/
theorem c2_retry_policy (code : ℤ) (ty msg : String)
    (outcomes : Nat → Except GoError Unit) (maxRetries : Nat) :
    (ty ≠ ("auth") → (500 ≤ code ∨ code = 429) →
      isRetryableError (some (.apiErr code ty)) = true) ∧
    (400 ≤ code → code < 500 → code ≠ 429 →
      isRetryableError (some (.apiErr code ty)) = false) ∧
    (isRetryableError (some (.apiErr code ("auth"))) = false) ∧
    (isRetryableError (some (.plain msg)) = true) ∧
    (isRetryableError (some circuitOpenError) = true) ∧
    ((∀ k, outcomes k = .error (.plain msg)) →
      doRequestWithRetry outcomes maxRetries = (maxRetries + 1, some (.plain msg))) ∧
    (outcomes 0 = .error (.apiErr code ("auth")) →
      doRequestWithRetry outcomes maxRetries = (1, some (.apiErr code ("auth")))) := by
  refine ⟨?_, ?_, ?_, rfl, rfl, ?_, ?_⟩
  · intro hty hcode
    have hnk : ¬ (400 ≤ code ∧ code < 500 ∧ code ≠ 429) := by omega
    simp [isRetryableError, hty, hnk, hcode]
  · intro h4 h5 h9
    have hk : 400 ≤ code ∧ code < 500 ∧ code ≠ 429 := ⟨h4, h5, h9⟩
    by_cases hty : ty = ("auth") <;> simp [isRetryableError, hty, hk]
  · simp [isRetryableError]
  · intro h
    have hg := retryLoopAux_const_error outcomes (.plain msg) rfl h maxRetries 0
    simpa [doRequestWithRetry] using hg
  · intro h0
    exact retry_stops_on_nonretryable outcomes (.apiErr code ("auth"))
      (by simp [isRetryableError]) h0 maxRetries

/-- Witness for c2_retry_policy at code 503, tag x, a constant plain network
error, budget 2. -/
theorem c2_retry_policy_witness :
    isRetryableError (some (.apiErr 503 ("x"))) = true ∧
    doRequestWithRetry (fun _ => .error (.plain ("boom"))) 2 = (3, some (.plain ("boom"))) :=
  ⟨(c2_retry_policy 503 ("x") ("boom") (fun _ => .error (.plain ("boom"))) 2).1
      (by decide) (Or.inl (by norm_num)),
    (c2_retry_policy 503 ("x") ("boom") (fun _ => .error (.plain ("boom"))) 2).2.2.2.2.2.1
      (fun _ => rfl)⟩

/-- Claim C5 (code_bug evidence): with rate 10 tokens per second and an empty
bucket, the Go calculateWaitTime truncates the float seconds value to an
integer before scaling to a Duration, so a 5-token deficit yields a computed
delay of 0 where the spec formula (n − tokens)/rate yields 500 milliseconds,
and a 25-token deficit yields 2 whole seconds where the spec formula yields
2.5 seconds. -/
theorem c5_wait_delay_truncated :
    calculateWaitTimeNs 10 0 5 = 0 ∧
    specWaitTimeNs 10 0 5 = 500000000 ∧
    (0 : ℤ) ≠ 500000000 ∧
    calculateWaitTimeNs 10 0 25 = 2000000000 ∧
    specWaitTimeNs 10 0 25 = 2500000000 := by
  refine ⟨?_, ?_, by omega, ?_, ?_⟩ <;>
    norm_num [calculateWaitTimeNs, specWaitTimeNs, Int.floor_eq_iff]

/-- Claim C9: when the local token bucket rejects a request,
doSingleRequest returns the 429 rate_limit APIError at once and the circuit
breaker is not invoked: its state, failure counter and probe counter are
identical before and after the call. -/
theorem c9_rate_limited_request_skips_breaker (cfg : CBConfig) (now : ℤ)
    (opErr : Option GoError) (cb : CBState) :
    doSingleRequest false cfg now opErr cb = (some (.apiErr 429 ("rate_limit")), cb) ∧
    (doSingleRequest false cfg now opErr cb).2.tag = cb.tag ∧
    (doSingleRequest false cfg now opErr cb).2.failures = cb.failures ∧
    (doSingleRequest false cfg now opErr cb).2.requests = cb.requests :=
  ⟨rfl, rfl, rfl, rfl⟩

/-- Witness for c9_rate_limited_request_skips_breaker at the default breaker
configuration and a fresh breaker. -/
theorem c9_rate_limited_request_skips_breaker_witness :
    doSingleRequest false ⟨5, 60000000000, 3⟩ 0 none newCircuitBreaker =
      (some (.apiErr 429 ("rate_limit")), newCircuitBreaker) :=
  (c9_rate_limited_request_skips_breaker ⟨5, 60000000000, 3⟩ 0 none newCircuitBreaker).1

/-- Claim C10: for the numeric field type codes 2, 19, 20 and 21 the
host-to-wire conversion is total and errorless: nil maps to nil, integers and
floats to their numeric value, a parseable numeric string to the parsed
number, and every other input — a non-numeric string, a bool, any other
value — silently to 0. -/
theorem c10_numeric_conversion_total (t : ℤ) (ht : t ∈ numericTypeCodes)
    (z : ℤ) (q : ℚ) (s : String) (b : Bool) :
    convertFromGoValueNumeric t .gnil = some .wnil ∧
    convertFromGoValueNumeric t (.gint z) = some (.wnum (z : ℚ)) ∧
    convertFromGoValueNumeric t (.gfloat q) = some (.wnum q) ∧
    (goParseFloat s.toList = some q →
      convertFromGoValueNumeric t (.gstr s) = some (.wnum q)) ∧
    (goParseFloat s.toList = none →
      convertFromGoValueNumeric t (.gstr s) = some (.wnum 0)) ∧
    convertFromGoValueNumeric t (.gbool b) = some (.wnum 0) ∧
    convertFromGoValueNumeric t .gother = some (.wnum 0) ∧
    (∀ v : GoInValue, (convertFromGoValueNumeric t v).isSome = true) := by
  refine ⟨?_, ?_, ?_, ?_, ?_, ?_, ?_, ?_⟩
  · simp [convertFromGoValueNumeric, ht]
  · simp [convertFromGoValueNumeric, ht, convertFromNumber]
  · simp [convertFromGoValueNumeric, ht, convertFromNumber]
  · intro hq
    have hq2 : goParseFloat s.data = some q := hq
    simp [convertFromGoValueNumeric, ht, convertFromNumber, hq2]
  · intro hq
    have hq2 : goParseFloat s.data = none := hq
    simp [convertFromGoValueNumeric, ht, convertFromNumber, hq2]
  · simp [convertFromGoValueNumeric, ht, convertFromNumber]
  · simp [convertFromGoValueNumeric, ht, convertFromNumber]
  · intro v
    simp [convertFromGoValueNumeric, ht]

/-- Witness for c10_numeric_conversion_total at type code 2 and the
non-numeric string abc. -/
theorem c10_numeric_conversion_total_witness :
    convertFromGoValueNumeric 2 (.gstr ("abc")) = some (.wnum 0) :=
  (c10_numeric_conversion_total 2 (by decide) 0 0 ("abc") true).2.2.2.2.1 rfl

/-- Helper: one Execute step of the breaker preserves the claim C3 invariant
that a CLOSED breaker has fewer failures than the threshold. -/
theorem cbExecute_preserves_closed_inv (cfg : CBConfig) (hk : 1 ≤ cfg.maxFailures)
    (now : ℤ) (opErr : Option GoError) (s : CBState)
    (hs : s.tag = .closed → s.failures < cfg.maxFailures) :
    (cbExecute cfg now opErr s).2.tag = .closed →
      (cbExecute cfg now opErr s).2.failures < cfg.maxFailures := by
  obtain ⟨tag, f, r, t⟩ := s
  cases tag with
  | closed =>
    have hf : f < cfg.maxFailures := hs rfl
    cases hop : opErr.isSome with
    | true =>
      by_cases hth : cfg.maxFailures ≤ f + 1
      · simp [cbExecute, allowRequest, recordResult, hop, hth]
      · simp [cbExecute, allowRequest, recordResult, hop, hth]
        omega
    | false =>
      simp [cbExecute, allowRequest, recordResult, hop]
      omega
  | opened =>
    by_cases htime : cfg.timeout < now - t
    · cases hop : opErr.isSome with
      | true => simp [cbExecute, allowRequest, recordResult, hop, htime]
      | false =>
        by_cases hreq : cfg.maxRequests ≤ 1
        · simp [cbExecute, allowRequest, recordResult, hop, htime, hreq]
          omega
        · simp [cbExecute, allowRequest, recordResult, hop, htime, hreq]
    · simp [cbExecute, allowRequest, recordResult, htime]
  | halfOpen =>
    by_cases hreq : r < cfg.maxRequests
    · cases hop : opErr.isSome with
      | true => simp [cbExecute, allowRequest, recordResult, hop, hreq]
      | false =>
        by_cases hclose : cfg.maxRequests ≤ r + 1
        · simp [cbExecute, allowRequest, recordResult, hop, hreq, hclose]
          omega
        · simp [cbExecute, allowRequest, recordResult, hop, hreq, hclose]
    · simp [cbExecute, allowRequest, recordResult, hreq]

/-- Helper: from a reachable state, a CLOSED breaker keeps its failure count
strictly below the threshold. -/
theorem cb_closed_invariant (cfg : CBConfig) (hk : 1 ≤ cfg.maxFailures) :
    ∀ s, CBReachable cfg s → s.tag = .closed → s.failures < cfg.maxFailures := by
  intro s hreach
  induction hreach with
  | init => intro _; simpa [newCircuitBreaker] using hk
  | exec now opErr s hs ih => exact cbExecute_preserves_closed_inv cfg hk now opErr s ih
  | reset s hs ih => intro _; simpa [cbReset] using hk

/-- Helper: successful probes in HALF_OPEN count up from zero and close the
breaker exactly when the probe budget is reached. -/
theorem cb_probe_iterate (cfg : CBConfig) (hp : 1 ≤ cfg.maxRequests) (now : ℤ)
    (f : ℕ) (t : ℤ) :
    ∀ i, i ≤ cfg.maxRequests →
      (recordResult cfg now false)^[i] ⟨.halfOpen, f, 0, t⟩ =
        (if i < cfg.maxRequests then ⟨.halfOpen, f, i, t⟩ else ⟨.closed, 0, 0, t⟩) := by
  intro i
  induction i with
  | zero =>
    intro _
    have hp0 : 0 < cfg.maxRequests := hp
    rw [Function.iterate_zero, id_eq, if_pos hp0]
  | succ i ih =>
    intro hle
    have hi : i < cfg.maxRequests := by omega
    rw [Function.iterate_succ_apply', ih (le_of_lt hi), if_pos hi]
    by_cases hc : cfg.maxRequests ≤ i + 1
    · have hnc : ¬ (i + 1 < cfg.maxRequests) := by omega
      simp [recordResult, hc, hnc]
    · have hnc : i + 1 < cfg.maxRequests := by omega
      simp [recordResult, hc, hnc]

/-- Claim C3: the circuit breaker follows the specified state machine: from a
reachable state, CLOSED keeps failures below the threshold (the fresh breaker
starts CLOSED at 0); in CLOSED a failure increments the counter and the
threshold-reaching failure opens the breaker recording the failure time,
while a success zeroes the counter; an OPEN breaker admits a probe and moves
to HALF_OPEN with a fresh probe counter once the open timeout has elapsed;
maxRequests consecutive successful probes from HALF_OPEN close the breaker;
and any failure in HALF_OPEN immediately reopens it with the failure time
recorded. -/
theorem c3_circuit_breaker_state_machine (cfg : CBConfig)
    (hk : 1 ≤ cfg.maxFailures) (hp : 1 ≤ cfg.maxRequests) :
    (∀ s, CBReachable cfg s → s.tag = .closed → s.failures < cfg.maxFailures) ∧
    (∀ now f r t, f + 1 < cfg.maxFailures →
      recordResult cfg now true ⟨.closed, f, r, t⟩ = ⟨.closed, f + 1, r, now⟩) ∧
    (∀ now f r t, cfg.maxFailures ≤ f + 1 →
      recordResult cfg now true ⟨.closed, f, r, t⟩ = ⟨.opened, f + 1, r, now⟩) ∧
    (∀ now f r t, recordResult cfg now false ⟨.closed, f, r, t⟩ = ⟨.closed, 0, r, t⟩) ∧
    (∀ now f r t, cfg.timeout < now - t →
      allowRequest cfg now ⟨.opened, f, r, t⟩ = (true, ⟨.halfOpen, f, 0, t⟩)) ∧
    (∀ now f t, (recordResult cfg now false)^[cfg.maxRequests] ⟨.halfOpen, f, 0, t⟩ =
      ⟨.closed, 0, 0, t⟩) ∧
    (∀ now f r t, recordResult cfg now true ⟨.halfOpen, f, r, t⟩ =
      ⟨.opened, f, r + 1, now⟩) := by
  refine ⟨cb_closed_invariant cfg hk, ?_, ?_, ?_, ?_, ?_, ?_⟩
  · intro now f r t h
    have hn : ¬ (cfg.maxFailures ≤ f + 1) := by omega
    simp [recordResult, hn]
  · intro now f r t h
    simp [recordResult, h]
  · intro now f r t
    simp [recordResult]
  · intro now f r t h
    simp [allowRequest, h]
  · intro now f t
    have h := cb_probe_iterate cfg hp now f t cfg.maxRequests (le_refl _)
    simpa using h
  · intro now f r t
    simp [recordResult]

/-- Witness for c3_circuit_breaker_state_machine at the default breaker
configuration: the fresh breaker respects the invariant, and the fifth
consecutive failure opens the breaker recording the failure time. -/
theorem c3_circuit_breaker_state_machine_witness :
    newCircuitBreaker.failures < 5 ∧
    recordResult ⟨5, 60000000000, 3⟩ 7 true ⟨.closed, 4, 0, 0⟩ = ⟨.opened, 5, 0, 7⟩ :=
  ⟨(c3_circuit_breaker_state_machine ⟨5, 60000000000, 3⟩ (by decide) (by decide)).1
      newCircuitBreaker CBReachable.init rfl,
    (c3_circuit_breaker_state_machine ⟨5, 60000000000, 3⟩ (by decide) (by decide)).2.2.1
      7 4 0 0 (by decide)⟩

/-- The reachability invariant of the token bucket: a well-formed
configuration and tokens within the burst bounds. -/
def TBInv (s : TBState) : Prop :=
  s.config.Valid ∧ 0 ≤ s.tokens ∧ s.tokens ≤ (s.config.burst : ℚ)

/-- Helper: refill preserves the bucket invariant. -/
theorem tbRefill_inv (now : ℚ) (s : TBState) (h : TBInv s) : TBInv (tbRefill now s) := by
  obtain ⟨cfg, tokens, last⟩ := s
  obtain ⟨rate, burst⟩ := cfg
  obtain ⟨⟨hr, hb⟩, h0, h1⟩ := h
  have hbq : (0 : ℚ) ≤ (burst : ℚ) := by exact_mod_cast hb
  simp only [TBInv, RLConfig.Valid, tbRefill] at *
  split_ifs with he hc
  · exact ⟨⟨hr, hb⟩, h0, h1⟩
  · refine ⟨⟨hr, hb⟩, ?_, ?_⟩
    · show (0 : ℚ) ≤ (burst : ℚ)
      exact hbq
    · show (burst : ℚ) ≤ (burst : ℚ)
      exact le_refl _
  · have helapsed : (0 : ℚ) < now - last := by linarith
    have hmul : (0 : ℚ) ≤ rate * (now - last) := mul_nonneg hr (le_of_lt helapsed)
    have hle := not_lt.mp hc
    refine ⟨⟨hr, hb⟩, ?_, ?_⟩
    · show (0 : ℚ) ≤ tokens + rate * (now - last)
      linarith
    · show tokens + rate * (now - last) ≤ (burst : ℚ)
      linarith

/-- Helper: decrementing granted tokens preserves the bucket invariant. -/
theorem tbDec_inv (s1 : TBState) (h : TBInv s1) (n : ℚ) (h0 : 0 ≤ n)
    (hn : n ≤ s1.tokens) : TBInv { s1 with tokens := s1.tokens - n } := by
  obtain ⟨hv, ha, hb⟩ := h
  refine ⟨hv, ?_, ?_⟩
  · show 0 ≤ s1.tokens - n
    linarith
  · show s1.tokens - n ≤ (s1.config.burst : ℚ)
    linarith

/-- Helper: Allow preserves the bucket invariant. -/
theorem tbAllow_inv (now : ℚ) (s : TBState) (h : TBInv s) : TBInv (tbAllow now s).2 := by
  have h1 := tbRefill_inv now s h
  simp only [tbAllow]
  split_ifs with hge
  · exact tbDec_inv (tbRefill now s) h1 1 (by norm_num) hge
  · exact h1

/-- Helper: AllowN preserves the bucket invariant. -/
theorem tbAllowN_inv (now : ℚ) (n : ℤ) (s : TBState) (h : TBInv s) :
    TBInv (tbAllowN now n s).2 := by
  simp only [tbAllowN]
  split_ifs with hn hge
  · exact h
  · have hpos : (0 : ℚ) ≤ (n : ℚ) := by
      have : (0 : ℤ) ≤ n := by omega
      exact_mod_cast this
    exact tbDec_inv (tbRefill now s) (tbRefill_inv now s h) (n : ℚ) hpos hge
  · exact tbRefill_inv now s h

/-- Helper: Reset preserves the bucket invariant. -/
theorem tbReset_inv (now : ℚ) (s : TBState) (h : TBInv s) : TBInv (tbReset now s) := by
  obtain ⟨cfg, tokens, last⟩ := s
  obtain ⟨⟨hr, hb⟩, _, _⟩ := h
  refine ⟨⟨hr, hb⟩, ?_, le_refl _⟩
  show (0 : ℚ) ≤ (cfg.burst : ℚ)
  exact_mod_cast hb

/-- Helper: UpdateConfig with a well-formed configuration preserves the
bucket invariant. -/
theorem tbUpdateConfig_inv (cfg : RLConfig) (s : TBState) (hcfg : cfg.Valid)
    (h : TBInv s) : TBInv (tbUpdateConfig cfg s) := by
  obtain ⟨scfg, tokens, last⟩ := s
  obtain ⟨_, h0, _⟩ := h
  simp only [tbUpdateConfig]
  split_ifs with hc
  · refine ⟨hcfg, ?_, le_refl _⟩
    show (0 : ℚ) ≤ (cfg.burst : ℚ)
    exact_mod_cast hcfg.2
  · exact ⟨hcfg, h0, not_lt.mp hc⟩

/-- Helper: every reachable bucket state satisfies the invariant. -/
theorem tb_reachable_inv : ∀ s, TBReachable s → TBInv s := by
  intro s h
  induction h with
  | init cfg now hv =>
    refine ⟨hv, ?_, le_refl _⟩
    show (0 : ℚ) ≤ (cfg.burst : ℚ)
    exact_mod_cast hv.2
  | allow now s hs ih => exact tbAllow_inv now s ih
  | allowN now n s hs ih => exact tbAllowN_inv now n s ih
  | refill now s hs ih => exact tbRefill_inv now s ih
  | reset now s hs ih => exact tbReset_inv now s ih
  | update cfg s hcfg hs ih => exact tbUpdateConfig_inv cfg s hcfg ih

/-- Claim C4: at every observable moment of a bucket reachable through
Allow, AllowN (hence Wait/WaitN), refill, Reset and UpdateConfig under
well-formed configurations, the token counter stays within 0 and the burst of
the currently active configuration: refill clamps at the burst, grants never
drive the counter negative, and a configuration update clamps the carried
tokens to the new burst. -/
theorem c4_token_bucket_bounds (s : TBState) (h : TBReachable s) :
    0 ≤ s.tokens ∧ s.tokens ≤ (s.config.burst : ℚ) :=
  ⟨(tb_reachable_inv s h).2.1, (tb_reachable_inv s h).2.2⟩

/-- Witness for c4_token_bucket_bounds at the default configuration (rate 10,
burst 20) after one Allow call at time 1. -/
theorem c4_token_bucket_bounds_witness :
    0 ≤ (tbAllow 1 (newTokenBucket ⟨10, 20⟩ 0)).2.tokens ∧
      (tbAllow 1 (newTokenBucket ⟨10, 20⟩ 0)).2.tokens ≤
        (((tbAllow 1 (newTokenBucket ⟨10, 20⟩ 0)).2.config.burst : ℚ)) :=
  c4_token_bucket_bounds _
    (TBReachable.allow 1 _ (TBReachable.init ⟨10, 20⟩ 0 ⟨by norm_num, by norm_num⟩))

/-- Helper: a fully successful deletion loop issues one DELETE per record in
order and reports no error. -/
theorem rawDeleteLoop_success (del : String → Option GoError) :
    ∀ items : List String, (∀ id ∈ items, del id = none) →
      rawDeleteLoop del items = (items.map .deleteRecord, none) := by
  intro items
  induction items with
  | nil => intro _; rfl
  | cons id rest ih =>
    intro h
    have hid : del id = none := h id (by simp)
    have hr := ih (fun x hx => h x (by simp [hx]))
    simp [rawDeleteLoop, hid, hr]

/-- Helper: the deletion loop stops at the first failing DELETE, having
issued the successful deletes plus the failing one. -/
theorem rawDeleteLoop_failure (del : String → Option GoError) :
    ∀ (pre : List String) (bad : String) (post : List String) (e : GoError),
      (∀ id ∈ pre, del id = none) → del bad = some e →
      rawDeleteLoop del (pre ++ bad :: post) =
        ((pre ++ [bad]).map .deleteRecord, some e) := by
  intro pre
  induction pre with
  | nil =>
    intro bad post e _ hbad
    simp [rawDeleteLoop, hbad]
  | cons id tl ih =>
    intro bad post e hpre hbad
    have hid : del id = none := hpre id (by simp)
    have hr := ih bad post e (fun x hx => hpre x (by simp [hx])) hbad
    simp [rawDeleteLoop, hid, hr]

/-- Claim C6 (counterexample): with seven records and the DELETE of the
fourth failing, executeRawDelete returns the error but leaves RowsAffected at
0 — not at 3, the number of deletes already applied — refuting the claim's
failure clause. -/
theorem c6_partial_failure_reports_zero :
    executeRawDeleteNoWhere
      (.ok [("r1"), ("r2"), ("r3"), ("r4"), ("r5"), ("r6"), ("r7")])
      (fun id => if id = ("r4") then some (.plain ("boom")) else none) =
      ([.listRecords, .deleteRecord ("r1"), .deleteRecord ("r2"), .deleteRecord ("r3"),
        .deleteRecord ("r4")], 0, some (.plain ("boom"))) ∧
    (0 : ℤ) ≠ 3 :=
  ⟨rfl, by omega⟩

/-- Claim C6 (amended): a raw DELETE without WHERE first issues one list call
and then one DELETE per listed record; on full success the reported
RowsAffected equals the number of records deleted; when a DELETE fails the
error is returned, the loop stops, and RowsAffected is left at its initial 0
(the count of deletes already applied is not reported). -/
theorem c6_raw_delete_all (items pre post : List String) (bad : String)
    (del : String → Option GoError) (e : GoError) :
    (items ≠ [] → (∀ id ∈ items, del id = none) →
      executeRawDeleteNoWhere (.ok items) del =
        (.listRecords :: items.map .deleteRecord, (items.length : ℤ), none)) ∧
    ((∀ id ∈ pre, del id = none) → del bad = some e →
      executeRawDeleteNoWhere (.ok (pre ++ bad :: post)) del =
        (.listRecords :: (pre ++ [bad]).map .deleteRecord, 0, some e)) := by
  constructor
  · intro hne hall
    have hl := rawDeleteLoop_success del items hall
    simp [executeRawDeleteNoWhere, hne, hl]
  · intro hpre hbad
    have hl := rawDeleteLoop_failure del pre bad post e hpre hbad
    have hne : pre ++ bad :: post ≠ [] := by simp
    simp [executeRawDeleteNoWhere, hne, hl]

/-- Witness for c6_raw_delete_all: two records, both deletes succeed, and a
separate run whose first delete fails. -/
theorem c6_raw_delete_all_witness :
    executeRawDeleteNoWhere (.ok [("a"), ("b")]) (fun _ => none) =
      ([.listRecords, .deleteRecord ("a"), .deleteRecord ("b")], 2, none) ∧
    executeRawDeleteNoWhere (.ok [("a")]) (fun _ => some (.plain ("x"))) =
      ([.listRecords, .deleteRecord ("a")], 0, some (.plain ("x"))) := by
  constructor
  · have h := (c6_raw_delete_all [("a"), ("b")] [] [] ("z") (fun _ => none)
      (.plain ("w"))).1 (by simp) (fun id _ => rfl)
    simpa using h
  · have h := (c6_raw_delete_all [] [] [] ("a") (fun _ => some (.plain ("x")))
      (.plain ("x"))).2 (fun id hid => by simp at hid) rfl
    simpa using h

/-- Claim C7 (counterexample): the ORM expression translator's
buildLikeCondition emits the LIKE pattern unchanged — percent-zh-percent, not
zh — refuting that every WHERE-translation path strips the wildcards. -/
theorem c7_orm_like_keeps_wildcards :
    buildLikeCondition ("name") (.vstr ("%zh%")) =
      some ⟨("name"), ("contains"), [.vstr ("%zh%")]⟩ ∧
    [GoValue.vstr ("%zh%")] ≠ [GoValue.vstr ("zh")] :=
  ⟨rfl, by decide⟩

/-- Claim C7 (amended): the raw-SQL WHERE translator maps LIKE to one
contains condition with the percent and underscore wildcards stripped (the S2
clause yields value zh) and IS NULL / IS NOT NULL to isEmpty / isNotEmpty
with an empty values array; the ORM translators also emit contains for LIKE
and isEmpty / isNotEmpty with empty values for the NULL tests, but
buildLikeCondition passes the pattern through unchanged (no wildcard
stripping, for any column and pattern). -/
theorem c7_where_translation (col : String) (v : GoValue) (vars : List GoValue)
    (hcol : col ≠ ("")) :
    buildFilterFromWhere likeZhClause =
      some ⟨("and"), [⟨("name"), ("contains"), [.vstr ("zh")]⟩]⟩ ∧
    buildFilterFromWhere ("age IS NULL") =
      some ⟨("and"), [⟨("age"), ("isEmpty"), []⟩]⟩ ∧
    buildFilterFromWhere ("age IS NOT NULL") =
      some ⟨("and"), [⟨("age"), ("isNotEmpty"), []⟩]⟩ ∧
    buildLikeCondition col v = some ⟨col, ("contains"), [v]⟩ ∧
    buildExprCondition ("active IS NULL") vars = some ⟨("ACTIVE"), ("isEmpty"), []⟩ ∧
    buildExprCondition ("active IS NOT NULL") vars =
      some ⟨("ACTIVE"), ("isNotEmpty"), []⟩ := by
  refine ⟨rfl, rfl, rfl, ?_, rfl, rfl⟩
  simp [buildLikeCondition, hcol]

/-- Witness for c7_where_translation at column name and an arbitrary
pattern. -/
theorem c7_where_translation_witness :
    buildLikeCondition ("name") (.vstr ("%a_%")) =
      some ⟨("name"), ("contains"), [.vstr ("%a_%")]⟩ :=
  (c7_where_translation ("name") (.vstr ("%a_%")) [] (by decide)).2.2.2.1

/-- Claim C8 (counterexample): the value parser turns the unquoted token 42
into the float 42.0, not the integer 42, and the value-list tokenizer strips
quotes before classification, so the quoted token 42 also becomes the number
42.0 rather than the string 42 — refuting both the integer step and the
quoted-string rule. -/
theorem c8_unquoted_integer_is_float :
    sqlParseValue ("42") = .vfloat 42 ∧
    GoValue.vfloat 42 ≠ GoValue.vint 42 ∧
    parseValueListGo quoted42 = [.vfloat 42] ∧
    [GoValue.vfloat 42] ≠ [GoValue.vstr ("42")] :=
  ⟨rfl, by decide, rfl, by decide⟩

/-- Claim C8 (amended): the value parser classifies a literal token in order
NULL, number, boolean, string: there is no integer step — a numeric literal
becomes a float64 and the parser never produces a Go int — and the tokenizer
erases quoting before classification, so quoted numerals also parse as
numbers; NULL is recognised case-insensitively, booleans after numbers, and
everything else stays a (trimmed) string. -/
theorem c8_value_classification (s : String) (q : ℚ) (b : Bool) :
    (∀ z : ℤ, sqlParseValue s ≠ .vint z) ∧
    (String.mk ((trimChars s.toList).map Char.toUpper) = ("NULL") →
      sqlParseValue s = .vnull) ∧
    (String.mk ((trimChars s.toList).map Char.toUpper) ≠ ("NULL") →
      goParseFloat (trimChars s.toList) = some q → sqlParseValue s = .vfloat q) ∧
    (String.mk ((trimChars s.toList).map Char.toUpper) ≠ ("NULL") →
      goParseFloat (trimChars s.toList) = none →
      goParseBool (trimChars s.toList) = some b → sqlParseValue s = .vbool b) ∧
    (String.mk ((trimChars s.toList).map Char.toUpper) ≠ ("NULL") →
      goParseFloat (trimChars s.toList) = none →
      goParseBool (trimChars s.toList) = none →
      sqlParseValue s = .vstr (String.mk (trimChars s.toList))) ∧
    sqlParseValue ("42.5") = .vfloat (85 / 2) ∧
    sqlParseValue ("true") = .vbool true ∧
    sqlParseValue ("null") = .vnull := by
  refine ⟨?_, ?_, ?_, ?_, ?_, ?_, rfl, rfl⟩
  · intro z
    simp only [sqlParseValue]
    split_ifs with h1
    · simp
    · cases hf : goParseFloat (trimChars s.toList) with
      | some q2 => simp [hf]
      | none =>
        cases hb2 : goParseBool (trimChars s.toList) with
        | some b2 => simp [hf, hb2]
        | none => simp [hf, hb2]
  · intro h1
    have h1b : String.mk ((trimChars s.data).map Char.toUpper) = ("NULL") := h1
    simp [sqlParseValue, h1b]
  · intro h1 hq
    have h1b : String.mk ((trimChars s.data).map Char.toUpper) ≠ ("NULL") := h1
    have hqb : goParseFloat (trimChars s.data) = some q := hq
    simp [sqlParseValue, h1b, hqb]
  · intro h1 hq hb2
    have h1b : String.mk ((trimChars s.data).map Char.toUpper) ≠ ("NULL") := h1
    have hqb : goParseFloat (trimChars s.data) = none := hq
    have hbb : goParseBool (trimChars s.data) = some b := hb2
    simp [sqlParseValue, h1b, hqb, hbb]
  · intro h1 hq hb2
    have h1b : String.mk ((trimChars s.data).map Char.toUpper) ≠ ("NULL") := h1
    have hqb : goParseFloat (trimChars s.data) = none := hq
    have hbb : goParseBool (trimChars s.data) = none := hb2
    simp [sqlParseValue, h1b, hqb, hbb]
  · have h0 : sqlParseValue ("42.5") =
        GoValue.vfloat ((42 : ℚ) + (5 : ℚ) / 10 ^ (1 : ℕ)) := rfl
    rw [h0]
    congr 1
    norm_num

/-- Witness for c8_value_classification at the token 42: not NULL, parses as
the float 42. -/
theorem c8_value_classification_witness :
    sqlParseValue ("42") = GoValue.vfloat 42 :=
  (c8_value_classification ("42") 42 true).2.2.1 (by decide) rfl

end BaseSQL
